import Mathlib

/-!
Authorization builder of `internal/handlers/handler_authz_builder.go`.

A shallow embedding of the fluent `AuthzBuilder` (its `With*` steps and `Build`)
and the properties of the specification that concern it.  Go methods on
`*AuthzBuilder` mutate the receiver and return it; here every step is a pure
function from the builder state before the call to the builder state after it.
-/

namespace Handlers

/-! ## Data model -/

/-- Go `time.Duration`: a signed count of nanoseconds. -/
abbrev Duration := Int

/-- Go `time.Second`. -/
def Second : Duration := 1000000000

/-- Go `time.Hour`. -/
def Hour : Duration := 3600 * Second

/-- Go `fasthttp.StatusUnauthorized`. -/
def StatusUnauthorized : Nat := 401

/-- Section `authentication_backend` of `schema.Configuration`: the only field
`WithConfig` reads is the refresh interval string. -/
structure Schema.AuthenticationBackend where
  RefreshInterval : String
  deriving DecidableEq, Repr

/-- Section `session` of `schema.Configuration`: the only field `WithConfig`
reads is the session domain. -/
structure Schema.Session where
  Domain : String
  deriving DecidableEq, Repr

/-- The part of `schema.Configuration` that `WithConfig` reads. -/
structure Schema.Configuration where
  AuthenticationBackend : Schema.AuthenticationBackend
  Session : Schema.Session
  deriving DecidableEq, Repr

/-- One element of `schema.ServerAuthzEndpointConfig.AuthnStrategies`. -/
structure Schema.ServerAuthzEndpointAuthnStrategy where
  Name : String
  deriving DecidableEq, Repr

/-- Go `schema.ServerAuthzEndpointConfig`, as read by `WithEndpointConfig`. -/
structure Schema.ServerAuthzEndpointConfig where
  Implementation : String
  AuthnStrategies : List Schema.ServerAuthzEndpointAuthnStrategy
  deriving DecidableEq, Repr

/-- Modelled from the spec: the constant `schema.ProfileRefreshDisabled` is not
under src/; the spec gives the refresh-interval string "disabled". -/
def Schema.ProfileRefreshDisabled : String := "disabled"

/-- Modelled from the spec: the constant `schema.ProfileRefreshAlways` is not
under src/; the spec gives the refresh-interval string "always". -/
def Schema.ProfileRefreshAlways : String := "always"

/-- Modelled from the spec: the declaration of `AuthzImplementation` and of its
constants is not under src/.  The spec declares `enum {Legacy, ForwardAuth,
AuthRequest}`; the constructors carry the names the source uses. -/
inductive AuthzImplementation where
  | AuthzImplLegacy
  | AuthzImplForwardAuth
  | AuthzImplAuthRequest
  deriving DecidableEq, Repr

/-- Modelled from the spec: the constant declaration of `AuthzImplementation` is
not under src/, so the value a field of that type holds until it is assigned
cannot be read there.  The spec says that an unset implementation takes the
same default pair as ForwardAuth and that every engine is bound to the adapter
pair of its implementation; of the three values of the enumeration only
ForwardAuth does both. -/
def AuthzImplementation.zero : AuthzImplementation := .AuthzImplForwardAuth

/-- Modelled from the spec: the method `AuthzImplementation.String` is not under
src/; the spec gives the implementation names `legacy`, `forwardauth`,
`authrequest`. -/
def AuthzImplementation.String : AuthzImplementation → String
  | .AuthzImplLegacy => "legacy"
  | .AuthzImplForwardAuth => "forwardauth"
  | .AuthzImplAuthRequest => "authrequest"

/-- Modelled from the spec: the declaration of `AuthnType` is not under src/;
one tag per header the spec names for the header strategy. -/
inductive AuthnType where
  | AuthnTypeAuthorization
  | AuthnTypeProxyAuthorization
  | AuthnTypeLegacy
  deriving DecidableEq, Repr

/-- The struct `HeaderAuthnStrategy`, with the four fields the literal in
`Build` assigns. -/
structure HeaderAuthnStrategy where
  authn : AuthnType
  headerAuthorize : String
  handleAuthenticate : Bool
  statusAuthenticate : Nat
  deriving DecidableEq, Repr

/-- Modelled from the spec: the declarations of the strategy types are not
under src/; the spec gives the variants `SessionCookie` (with its refresh
interval) and `Header(headerName, challengeOnFailure, challengeStatus)`. -/
inductive AuthnStrategy where
  | SessionCookie (refreshInterval : Duration)
  | Header (strategy : HeaderAuthnStrategy)
  deriving DecidableEq, Repr

/-- Modelled from the spec: the constant `headerProxyAuthorization` is not under
src/; it names the Proxy-Authorization header. -/
def headerProxyAuthorization : String := "Proxy-Authorization"

/-- Modelled from the spec: the constant `headerAuthorization` is not under
src/; it names the Authorization header. -/
def headerAuthorization : String := "Authorization"

/-- Modelled from the spec: the name of the legacy combined header is not under
src/; the spec calls it `legacy-combined`. -/
def headerLegacyCombined : String := "legacy-combined"

/-- Modelled from the spec: `NewSessionCookieAuthnStrategy` is not under src/;
the session-cookie strategy carries the refresh interval it was built with. -/
def NewSessionCookieAuthnStrategy (refreshInterval : Duration) : AuthnStrategy :=
  .SessionCookie refreshInterval

/-- Modelled from the spec: `NewAuthorizationHeaderAuthnStrategy` is not under
src/; a header strategy on the Authorization header.  The spec names a
challenge only for the AuthRequest default, so none is set here. -/
def NewAuthorizationHeaderAuthnStrategy : AuthnStrategy :=
  .Header
    { authn := .AuthnTypeAuthorization
      headerAuthorize := headerAuthorization
      handleAuthenticate := false
      statusAuthenticate := 0 }

/-- Modelled from the spec: `NewProxyAuthorizationHeaderAuthnStrategy` is not
under src/; the spec describes the strategy it returns as
`proxy-authorization-header(challengeOnFailure=false)`. -/
def NewProxyAuthorizationHeaderAuthnStrategy : AuthnStrategy :=
  .Header
    { authn := .AuthnTypeProxyAuthorization
      headerAuthorize := headerProxyAuthorization
      handleAuthenticate := false
      statusAuthenticate := 0 }

/-- Modelled from the spec: `NewLegacyHeaderAuthnStrategy` is not under src/; a
header strategy on the legacy combined header. -/
def NewLegacyHeaderAuthnStrategy : AuthnStrategy :=
  .Header
    { authn := .AuthnTypeLegacy
      headerAuthorize := headerLegacyCombined
      handleAuthenticate := false
      statusAuthenticate := 0 }

/-- Modelled from the spec: the constant `AuthnStrategyCookieSession` is not
under src/; the spec gives the identifier `cookie-session`. -/
def AuthnStrategyCookieSession : String := "cookie-session"

/-- Modelled from the spec: the constant `AuthnStrategyHeaderAuthorization` is
not under src/; the spec gives the identifier `header-authorization`. -/
def AuthnStrategyHeaderAuthorization : String := "header-authorization"

/-- Modelled from the spec: the constant `AuthnStrategyHeaderProxyAuthorization`
is not under src/; the spec gives the identifier `header-proxy-authorization`. -/
def AuthnStrategyHeaderProxyAuthorization : String := "header-proxy-authorization"

/-- Modelled from the spec: the constant `AuthnStrategyHeaderLegacy` is not
under src/; the spec gives the identifier `header-legacy-combined`. -/
def AuthnStrategyHeaderLegacy : String := "header-legacy-combined"

/-- Go `AuthzDomain`; a nil `PortalURL` is `none`. -/
structure AuthzDomain where
  Name : String
  PortalURL : Option String
  deriving DecidableEq, Repr

/-- Go `AuthzConfig`; a nil `Domains` slice is the empty list. -/
structure AuthzConfig where
  RefreshInterval : Duration
  Domains : List AuthzDomain
  deriving DecidableEq, Repr

/-- Go `AuthzBuilder`; a nil `strategies` slice is the empty list. -/
structure AuthzBuilder where
  config : AuthzConfig
  impl : AuthzImplementation
  strategies : List AuthnStrategy
  deriving DecidableEq, Repr

/-- The object extractors `Build` binds to `fObjectGet`, by their source names. -/
inductive AuthzGetObject where
  | authzGetObjectImplLegacy
  | authzGetObjectImplForwardAuth
  | authzGetObjectImplAuthRequest
  deriving DecidableEq, Repr

/-- The unauthorized responders `Build` binds to `fHandleUnauthorized`, by their
source names. -/
inductive AuthzHandleUnauthorized where
  | authzHandleUnauthorizedImplLegacy
  | authzHandleUnauthorizedImplForwardAuth
  | authzHandleUnauthorizedImplAuthRequest
  deriving DecidableEq, Repr

/-- The shared object verifier `Build` binds to `fObjectVerify`. -/
inductive AuthzObjectVerify where
  | authzObjectVerifyStandard
  deriving DecidableEq, Repr

/-- The shared authorized responder `Build` binds to `fHandleAuthorized`. -/
inductive AuthzHandleAuthorized where
  | authzHandleAuthorizedStandard
  deriving DecidableEq, Repr

/-- Go `Authz`; a function field that was never assigned (nil) is `none`. -/
structure Authz where
  config : AuthzConfig
  strategies : List AuthnStrategy
  fObjectGet : Option AuthzGetObject
  fObjectVerify : Option AuthzObjectVerify
  fHandleAuthorized : Option AuthzHandleAuthorized
  fHandleUnauthorized : Option AuthzHandleUnauthorized
  deriving DecidableEq, Repr

/-- The implementation an object extractor is written for (the `Impl...` part
of its name). -/
def AuthzGetObject.implementation : AuthzGetObject → AuthzImplementation
  | .authzGetObjectImplLegacy => .AuthzImplLegacy
  | .authzGetObjectImplForwardAuth => .AuthzImplForwardAuth
  | .authzGetObjectImplAuthRequest => .AuthzImplAuthRequest

/-- The implementation an unauthorized responder is written for (the `Impl...`
part of its name). -/
def AuthzHandleUnauthorized.implementation :
    AuthzHandleUnauthorized → AuthzImplementation
  | .authzHandleUnauthorizedImplLegacy => .AuthzImplLegacy
  | .authzHandleUnauthorizedImplForwardAuth => .AuthzImplForwardAuth
  | .authzHandleUnauthorizedImplAuthRequest => .AuthzImplAuthRequest

/-- The result type of `utils.ParseDurationString`: Go returns the pair
`(duration, err)`; `none` is a nil error. -/
abbrev ParseResult := Duration × Option String

/-! ## Builder steps -/

/-- Go `NewAuthzBuilder`: only `config.RefreshInterval` is set.  The `impl` field
is left at the zero value of its type; `strategies` and `Domains` are nil. -/
def NewAuthzBuilder : AuthzBuilder :=
  { config := { RefreshInterval := Second * -1, Domains := [] }
    impl := AuthzImplementation.zero
    strategies := [] }

/-- Go `AuthzBuilder.WithStrategies`: replaces the strategies by the variadic
argument. -/
def AuthzBuilder.WithStrategies (b : AuthzBuilder) (strategies : List AuthnStrategy) :
    AuthzBuilder :=
  { b with strategies := strategies }

/-- Go `AuthzBuilder.WithStrategyCookie`. -/
def AuthzBuilder.WithStrategyCookie (b : AuthzBuilder) (refreshInterval : Duration) :
    AuthzBuilder :=
  { b with strategies := b.strategies ++ [NewSessionCookieAuthnStrategy refreshInterval] }

/-- Go `AuthzBuilder.WithStrategyAuthorization`. -/
def AuthzBuilder.WithStrategyAuthorization (b : AuthzBuilder) : AuthzBuilder :=
  { b with strategies := b.strategies ++ [NewAuthorizationHeaderAuthnStrategy] }

/-- Go `AuthzBuilder.WithStrategyProxyAuthorization`. -/
def AuthzBuilder.WithStrategyProxyAuthorization (b : AuthzBuilder) : AuthzBuilder :=
  { b with strategies := b.strategies ++ [NewProxyAuthorizationHeaderAuthnStrategy] }

/-- Go `AuthzBuilder.WithImplementationLegacy`. -/
def AuthzBuilder.WithImplementationLegacy (b : AuthzBuilder) : AuthzBuilder :=
  { b with impl := .AuthzImplLegacy }

/-- Go `AuthzBuilder.WithImplementationForwardAuth`. -/
def AuthzBuilder.WithImplementationForwardAuth (b : AuthzBuilder) : AuthzBuilder :=
  { b with impl := .AuthzImplForwardAuth }

/-- Go `AuthzBuilder.WithImplementationAuthRequest`. -/
def AuthzBuilder.WithImplementationAuthRequest (b : AuthzBuilder) : AuthzBuilder :=
  { b with impl := .AuthzImplAuthRequest }

/-- Go `AuthzBuilder.WithConfig`.  `utils.ParseDurationString` is not under src/
and is the parameter `parse`; the source keeps the duration it returns and
discards its error (`refreshInterval, _ = ...`).  A nil `config` is `none`. -/
def AuthzBuilder.WithConfig (parse : String → ParseResult) (b : AuthzBuilder)
    (config : Option Schema.Configuration) : AuthzBuilder :=
  match config with
  | none => b
  | some config =>
    let refreshInterval : Duration :=
      if config.AuthenticationBackend.RefreshInterval = Schema.ProfileRefreshDisabled then
        Second * -1
      else if config.AuthenticationBackend.RefreshInterval = Schema.ProfileRefreshAlways then
        Second * 0
      else
        (parse config.AuthenticationBackend.RefreshInterval).1
    { b with
      config :=
        { RefreshInterval := refreshInterval
          Domains := [{ Name := "." ++ config.Session.Domain, PortalURL := none }] } }

/-- The body of the loop of `WithEndpointConfig`: the switch on `strategy.Name`,
which appends one strategy for a recognized identifier and has no default
case. -/
def AuthzBuilder.appendEndpointStrategy (b : AuthzBuilder)
    (strategy : Schema.ServerAuthzEndpointAuthnStrategy) : AuthzBuilder :=
  if strategy.Name = AuthnStrategyCookieSession then
    { b with
      strategies := b.strategies ++ [NewSessionCookieAuthnStrategy b.config.RefreshInterval] }
  else if strategy.Name = AuthnStrategyHeaderAuthorization then
    { b with strategies := b.strategies ++ [NewAuthorizationHeaderAuthnStrategy] }
  else if strategy.Name = AuthnStrategyHeaderProxyAuthorization then
    { b with strategies := b.strategies ++ [NewProxyAuthorizationHeaderAuthnStrategy] }
  else if strategy.Name = AuthnStrategyHeaderLegacy then
    { b with strategies := b.strategies ++ [NewLegacyHeaderAuthnStrategy] }
  else
    b

/-- Go `AuthzBuilder.WithEndpointConfig`: the switch on the implementation
name, `b.WithStrategies()` with no argument, then the loop over the configured
strategy identifiers. -/
def AuthzBuilder.WithEndpointConfig (b : AuthzBuilder)
    (config : Schema.ServerAuthzEndpointConfig) : AuthzBuilder :=
  let b1 :=
    if config.Implementation = AuthzImplementation.AuthzImplForwardAuth.String then
      b.WithImplementationForwardAuth
    else if config.Implementation = AuthzImplementation.AuthzImplAuthRequest.String then
      b.WithImplementationAuthRequest
    else
      b.WithImplementationLegacy
  let b2 := b1.WithStrategies []
  config.AuthnStrategies.foldl AuthzBuilder.appendEndpointStrategy b2

/-- Go `AuthzBuilder.WithAuthzConfig`. -/
def AuthzBuilder.WithAuthzConfig (b : AuthzBuilder) (config : AuthzConfig) : AuthzBuilder :=
  { b with config := config }

/-- Go `AuthzBuilder.Build`. -/
def AuthzBuilder.Build (b : AuthzBuilder) : Authz :=
  let authz : Authz :=
    { config := b.config
      strategies := b.strategies
      fObjectGet := none
      fObjectVerify := some .authzObjectVerifyStandard
      fHandleAuthorized := some .authzHandleAuthorizedStandard
      fHandleUnauthorized := none }
  let authz : Authz :=
    if authz.strategies.length = 0 then
      match b.impl with
      | .AuthzImplLegacy =>
        { authz with
          strategies :=
            [NewLegacyHeaderAuthnStrategy, NewSessionCookieAuthnStrategy b.config.RefreshInterval] }
      | .AuthzImplAuthRequest =>
        { authz with
          strategies :=
            [ .Header
                { authn := .AuthnTypeProxyAuthorization
                  headerAuthorize := headerProxyAuthorization
                  handleAuthenticate := true
                  statusAuthenticate := StatusUnauthorized },
              NewSessionCookieAuthnStrategy 0 ] }
      | _ =>
        { authz with
          strategies :=
            [ NewProxyAuthorizationHeaderAuthnStrategy,
              NewSessionCookieAuthnStrategy b.config.RefreshInterval ] }
    else
      authz
  match b.impl with
  | .AuthzImplLegacy =>
    { authz with
      fObjectGet := some .authzGetObjectImplLegacy
      fHandleUnauthorized := some .authzHandleUnauthorizedImplLegacy }
  | .AuthzImplForwardAuth =>
    { authz with
      fObjectGet := some .authzGetObjectImplForwardAuth
      fHandleUnauthorized := some .authzHandleUnauthorizedImplForwardAuth }
  | .AuthzImplAuthRequest =>
    { authz with
      fObjectGet := some .authzGetObjectImplAuthRequest
      fHandleUnauthorized := some .authzHandleUnauthorizedImplAuthRequest }

/-! ## Reachable builder states -/

/-- One call of a `With*` method of the builder, with its argument. -/
inductive BuilderStep where
  | WithStrategies (strategies : List AuthnStrategy)
  | WithStrategyCookie (refreshInterval : Duration)
  | WithStrategyAuthorization
  | WithStrategyProxyAuthorization
  | WithImplementationLegacy
  | WithImplementationForwardAuth
  | WithImplementationAuthRequest
  | WithConfig (config : Option Schema.Configuration)
  | WithEndpointConfig (config : Schema.ServerAuthzEndpointConfig)
  | WithAuthzConfig (config : AuthzConfig)

/-- The builder after one `With*` call. -/
def AuthzBuilder.step (parse : String → ParseResult) (b : AuthzBuilder) :
    BuilderStep → AuthzBuilder
  | .WithStrategies strategies => b.WithStrategies strategies
  | .WithStrategyCookie refreshInterval => b.WithStrategyCookie refreshInterval
  | .WithStrategyAuthorization => b.WithStrategyAuthorization
  | .WithStrategyProxyAuthorization => b.WithStrategyProxyAuthorization
  | .WithImplementationLegacy => b.WithImplementationLegacy
  | .WithImplementationForwardAuth => b.WithImplementationForwardAuth
  | .WithImplementationAuthRequest => b.WithImplementationAuthRequest
  | .WithConfig config => b.WithConfig parse config
  | .WithEndpointConfig config => b.WithEndpointConfig config
  | .WithAuthzConfig config => b.WithAuthzConfig config

/-- The builder reached from `NewAuthzBuilder` by a chain of `With*` calls, in
the order of the list. -/
def runSteps (parse : String → ParseResult) (steps : List BuilderStep) : AuthzBuilder :=
  steps.foldl (AuthzBuilder.step parse) NewAuthzBuilder

/-- The strategy the specification assigns to a strategy identifier, for the
refresh interval the builder currently holds; `none` for an identifier it does
not name. -/
def strategyForIdentifier (refreshInterval : Duration) (name : String) :
    Option AuthnStrategy :=
  if name = AuthnStrategyCookieSession then
    some (NewSessionCookieAuthnStrategy refreshInterval)
  else if name = AuthnStrategyHeaderAuthorization then
    some NewAuthorizationHeaderAuthnStrategy
  else if name = AuthnStrategyHeaderProxyAuthorization then
    some NewProxyAuthorizationHeaderAuthnStrategy
  else if name = AuthnStrategyHeaderLegacy then
    some NewLegacyHeaderAuthnStrategy
  else
    none

/-- Whether a strategy identifier is one of the four the specification names. -/
def recognizedIdentifier (name : String) : Bool :=
  name = AuthnStrategyCookieSession ∨ name = AuthnStrategyHeaderAuthorization ∨
    name = AuthnStrategyHeaderProxyAuthorization ∨ name = AuthnStrategyHeaderLegacy

/-! ## A duration parser -/

/-- Modelled from the spec: part of `utils.ParseDurationString`, which is not
under src/; the number of nanoseconds of a unit letter of a duration literal. -/
def durationUnit : Char → Option Duration
  | 'h' => some Hour
  | 'm' => some (60 * Second)
  | 's' => some Second
  | _ => none

/-- Modelled from the spec: part of `utils.ParseDurationString`, which is not
under src/; the value of a non-empty string of decimal digits. -/
def decimalValue (digits : List Char) : Option Nat :=
  if digits ≠ [] ∧ digits.all Char.isDigit = true then
    some (digits.foldl (fun n c => 10 * n + (c.toNat - 48)) 0)
  else
    none

/-- Modelled from the spec: `utils.ParseDurationString` is not under src/.  The
spec says only that the refresh interval is a duration literal, that "1h" is
exactly one hour, and that an invalid string is an error.  Here a literal is a
decimal count followed by one unit letter (h, m or s); every other string is
rejected, with the zero duration next to the error as Go functions return it. -/
def ParseDurationString (input : String) : ParseResult :=
  match input.data.reverse with
  | [] => (0, some "empty duration string")
  | u :: rest =>
    match durationUnit u, decimalValue rest.reverse with
    | some ns, some count => ((count : Int) * ns, none)
    | _, _ => (0, some "invalid duration string")

/-- A configuration with the given refresh-interval string and session domain. -/
def configOf (refreshInterval domain : String) : Schema.Configuration :=
  { AuthenticationBackend := { RefreshInterval := refreshInterval }
    Session := { Domain := domain } }

/-! ## Properties of `WithConfig`: the refresh interval -/

/-- C1 (as amended): for every refresh-interval string that is neither "disabled"
nor "always", whether or not the duration parser rejects it, `WithConfig`
returns a builder whose `RefreshInterval` is the duration value the parser
returned; the error the parser returned is discarded (a parser that reports no
error at all gives the same builder), so a rejected string for which the parser
returns the zero duration leaves the builder exactly as "always" does. -/
theorem withConfig_keeps_duration_discards_error
    (parse : String → ParseResult) (b : AuthzBuilder) (config : Schema.Configuration)
    (hd : config.AuthenticationBackend.RefreshInterval ≠ Schema.ProfileRefreshDisabled)
    (ha : config.AuthenticationBackend.RefreshInterval ≠ Schema.ProfileRefreshAlways) :
    (b.WithConfig parse (some config)).config.RefreshInterval
        = (parse config.AuthenticationBackend.RefreshInterval).1 ∧
      b.WithConfig parse (some config)
        = b.WithConfig (fun s => ((parse s).1, none)) (some config) ∧
      ((parse config.AuthenticationBackend.RefreshInterval).1 = 0 →
        b.WithConfig parse (some config)
          = b.WithConfig parse
              (some (configOf Schema.ProfileRefreshAlways config.Session.Domain))) := by
  refine ⟨?_, ?_, ?_⟩
  · simp [AuthzBuilder.WithConfig, hd, ha]
  · simp [AuthzBuilder.WithConfig, hd, ha]
  · intro h0
    have hne : Schema.ProfileRefreshAlways ≠ Schema.ProfileRefreshDisabled := by decide
    simp [AuthzBuilder.WithConfig, hd, ha, h0, configOf, hne]

/-- The amended C1 at the string "soon", which the parser rejects: the builder
keeps the zero duration returned next to the error. -/
theorem withConfig_keeps_duration_discards_error_witness :
    (ParseDurationString "soon").2 ≠ none ∧
      (NewAuthzBuilder.WithConfig ParseDurationString
          (some (configOf "soon" "example.com"))).config.RefreshInterval
        = (ParseDurationString "soon").1 :=
  ⟨by decide,
    (withConfig_keeps_duration_discards_error ParseDurationString NewAuthzBuilder
      (configOf "soon" "example.com") (by decide) (by decide)).1⟩

/-- C1 fails as stated: "soon" is neither "disabled" nor "always" and the parser
rejects it, yet `WithConfig` returns a builder, with `RefreshInterval = 0`, the
very builder the string "always" gives. -/
theorem withConfig_rejected_string_gives_always :
    "soon" ≠ Schema.ProfileRefreshDisabled ∧ "soon" ≠ Schema.ProfileRefreshAlways ∧
      (ParseDurationString "soon").2 ≠ none ∧
      (NewAuthzBuilder.WithConfig ParseDurationString
          (some (configOf "soon" "example.com"))).config.RefreshInterval = 0 ∧
      NewAuthzBuilder.WithConfig ParseDurationString (some (configOf "soon" "example.com"))
        = NewAuthzBuilder.WithConfig ParseDurationString
            (some (configOf "always" "example.com")) := by
  decide

/-- C2: after `WithConfig` on a non-nil configuration the builder's
`RefreshInterval` is -1 second when the configured string is "disabled", the
zero duration when it is "always", and otherwise exactly the duration the
parser returns for the string; so with a parser that reads "1h" as one hour,
"1h" gives exactly one hour (3600 seconds). -/
theorem withConfig_refreshInterval
    (parse : String → ParseResult) (b : AuthzBuilder) (config : Schema.Configuration) :
    (config.AuthenticationBackend.RefreshInterval = "disabled" →
        (b.WithConfig parse (some config)).config.RefreshInterval = -1 * Second) ∧
      (config.AuthenticationBackend.RefreshInterval = "always" →
        (b.WithConfig parse (some config)).config.RefreshInterval = 0) ∧
      (config.AuthenticationBackend.RefreshInterval ≠ "disabled" →
        config.AuthenticationBackend.RefreshInterval ≠ "always" →
        (b.WithConfig parse (some config)).config.RefreshInterval
          = (parse config.AuthenticationBackend.RefreshInterval).1) ∧
      (config.AuthenticationBackend.RefreshInterval = "1h" →
        (parse "1h").1 = Hour →
        (b.WithConfig parse (some config)).config.RefreshInterval = 3600 * Second) := by
  refine ⟨?_, ?_, ?_, ?_⟩
  · intro h
    simp [AuthzBuilder.WithConfig, h, Schema.ProfileRefreshDisabled, Second]
  · intro h
    simp [AuthzBuilder.WithConfig, h, Schema.ProfileRefreshDisabled,
      Schema.ProfileRefreshAlways]
  · intro hd ha
    simp [AuthzBuilder.WithConfig, hd, ha, Schema.ProfileRefreshDisabled,
      Schema.ProfileRefreshAlways]
  · intro h h1
    simp [AuthzBuilder.WithConfig, h, h1, Schema.ProfileRefreshDisabled,
      Schema.ProfileRefreshAlways, Hour]

/-- C2 at "1h" with the modelled parser, from the builder `NewAuthzBuilder`
returns: exactly one hour, 3600000000000 nanoseconds. -/
theorem withConfig_refreshInterval_witness :
    (ParseDurationString "1h").1 = Hour ∧
      (NewAuthzBuilder.WithConfig ParseDurationString
          (some (configOf "1h" "example.com"))).config.RefreshInterval = 3600 * Second ∧
      3600 * Second = (3600000000000 : Int) :=
  ⟨by decide,
    (withConfig_refreshInterval ParseDurationString NewAuthzBuilder
      (configOf "1h" "example.com")).2.2.2 (by decide) (by decide),
    by decide⟩

/-! ## Properties of `Build`: the strategies -/

/-- A builder with at least one strategy hands its strategies to the engine
unchanged. -/
theorem build_strategies_of_ne_nil (b : AuthzBuilder) (h : b.strategies ≠ []) :
    b.Build.strategies = b.strategies := by
  have hlen : ¬ b.strategies.length = 0 := by
    intro h0
    exact h (List.length_eq_zero.mp h0)
  unfold AuthzBuilder.Build
  cases hi : b.impl <;> simp [hlen]

/-- The default pair `Build` injects for the Legacy implementation. -/
theorem build_strategies_nil_legacy (b : AuthzBuilder) (hs : b.strategies = [])
    (hi : b.impl = .AuthzImplLegacy) :
    b.Build.strategies
      = [NewLegacyHeaderAuthnStrategy, NewSessionCookieAuthnStrategy b.config.RefreshInterval] := by
  simp [AuthzBuilder.Build, hs, hi]

/-- The default pair `Build` injects for the ForwardAuth implementation. -/
theorem build_strategies_nil_forwardAuth (b : AuthzBuilder) (hs : b.strategies = [])
    (hi : b.impl = .AuthzImplForwardAuth) :
    b.Build.strategies
      = [NewProxyAuthorizationHeaderAuthnStrategy,
          NewSessionCookieAuthnStrategy b.config.RefreshInterval] := by
  simp [AuthzBuilder.Build, hs, hi]

/-- The default pair `Build` injects for the AuthRequest implementation. -/
theorem build_strategies_nil_authRequest (b : AuthzBuilder) (hs : b.strategies = [])
    (hi : b.impl = .AuthzImplAuthRequest) :
    b.Build.strategies
      = [ .Header
            { authn := .AuthnTypeProxyAuthorization
              headerAuthorize := headerProxyAuthorization
              handleAuthenticate := true
              statusAuthenticate := StatusUnauthorized },
          NewSessionCookieAuthnStrategy 0 ] := by
  simp [AuthzBuilder.Build, hs, hi]

/-- The engine `Build` returns never has an empty strategy list. -/
theorem build_strategies_ne_nil (b : AuthzBuilder) : b.Build.strategies ≠ [] := by
  by_cases hs : b.strategies = []
  · cases hi : b.impl
    · rw [build_strategies_nil_legacy b hs hi]; simp
    · rw [build_strategies_nil_forwardAuth b hs hi]; simp
    · rw [build_strategies_nil_authRequest b hs hi]; simp
  · rw [build_strategies_of_ne_nil b hs]; exact hs

/-- C3: for every builder whose strategy list is empty and whose implementation
is AuthRequest, whatever `RefreshInterval` its config holds, `Build` returns
exactly two strategies, in this order: the Proxy-Authorization header strategy
with challenge-on-failure set and challenge status 401, then the session-cookie
strategy with refresh interval 0. -/
theorem build_default_authRequest (b : AuthzBuilder) (hs : b.strategies = [])
    (hi : b.impl = .AuthzImplAuthRequest) :
    b.Build.strategies
      = [ AuthnStrategy.Header
            { authn := .AuthnTypeProxyAuthorization
              headerAuthorize := "Proxy-Authorization"
              handleAuthenticate := true
              statusAuthenticate := 401 },
          NewSessionCookieAuthnStrategy 0 ] := by
  rw [build_strategies_nil_authRequest b hs hi]
  rfl

/-- C3 at a builder whose configured refresh interval is one hour: the cookie
strategy of the default pair still has refresh interval 0. -/
theorem build_default_authRequest_witness :
    (AuthzBuilder.mk ⟨Hour, []⟩ .AuthzImplAuthRequest []).Build.strategies
      = [ AuthnStrategy.Header
            { authn := .AuthnTypeProxyAuthorization
              headerAuthorize := "Proxy-Authorization"
              handleAuthenticate := true
              statusAuthenticate := 401 },
          AuthnStrategy.SessionCookie 0 ] :=
  build_default_authRequest (AuthzBuilder.mk ⟨Hour, []⟩ .AuthzImplAuthRequest []) rfl rfl

/-- C5: for every builder reached from `NewAuthzBuilder` by any chain of
`With*` calls (`WithStrategies` with no argument and `WithEndpointConfig` with
an empty or entirely unrecognized identifier list among them), the engine
`Build` returns has a non-empty strategy list. -/
theorem build_strategies_nonempty_of_reachable (parse : String → ParseResult)
    (steps : List BuilderStep) :
    (runSteps parse steps).Build.strategies ≠ [] ∧
      0 < (runSteps parse steps).Build.strategies.length := by
  have h := build_strategies_ne_nil (runSteps parse steps)
  exact ⟨h, List.length_pos.mpr h⟩

/-- C5 at the chains the claim names: `WithStrategies` with no argument, and
`WithEndpointConfig` with an empty and with an unrecognized identifier list. -/
theorem build_strategies_nonempty_of_reachable_witness :
    (runSteps ParseDurationString
        [.WithStrategyAuthorization, .WithStrategies []]).Build.strategies ≠ [] ∧
      (runSteps ParseDurationString
        [.WithEndpointConfig ⟨"authrequest", []⟩]).Build.strategies ≠ [] ∧
      (runSteps ParseDurationString
        [.WithEndpointConfig ⟨"forwardauth", [⟨"cookie"⟩, ⟨"basic"⟩]⟩]).Build.strategies ≠ [] :=
  ⟨(build_strategies_nonempty_of_reachable ParseDurationString
      [.WithStrategyAuthorization, .WithStrategies []]).1,
    (build_strategies_nonempty_of_reachable ParseDurationString
      [.WithEndpointConfig ⟨"authrequest", []⟩]).1,
    (build_strategies_nonempty_of_reachable ParseDurationString
      [.WithEndpointConfig ⟨"forwardauth", [⟨"cookie"⟩, ⟨"basic"⟩]⟩]).1⟩

/-! ## Properties of `WithEndpointConfig` -/

/-- One pass of the loop body appends the strategy of a recognized identifier,
appends nothing for any other, and touches neither `config` nor `impl`. -/
theorem appendEndpointStrategy_eq (b : AuthzBuilder)
    (s : Schema.ServerAuthzEndpointAuthnStrategy) :
    (b.appendEndpointStrategy s).strategies
        = b.strategies ++ (strategyForIdentifier b.config.RefreshInterval s.Name).toList ∧
      (b.appendEndpointStrategy s).config = b.config ∧
      (b.appendEndpointStrategy s).impl = b.impl := by
  unfold AuthzBuilder.appendEndpointStrategy strategyForIdentifier
  split_ifs <;> simp

/-- The loop of `WithEndpointConfig`, from any builder: the strategies of the
recognized identifiers are appended in their order. -/
theorem foldl_appendEndpointStrategy (l : List Schema.ServerAuthzEndpointAuthnStrategy)
    (b : AuthzBuilder) :
    (l.foldl AuthzBuilder.appendEndpointStrategy b).strategies
        = b.strategies
          ++ l.filterMap (fun s => strategyForIdentifier b.config.RefreshInterval s.Name) ∧
      (l.foldl AuthzBuilder.appendEndpointStrategy b).config = b.config ∧
      (l.foldl AuthzBuilder.appendEndpointStrategy b).impl = b.impl := by
  induction l generalizing b with
  | nil => simp
  | cons s rest ih =>
    obtain ⟨h1, h2, h3⟩ := appendEndpointStrategy_eq b s
    obtain ⟨i1, i2, i3⟩ := ih (b.appendEndpointStrategy s)
    rw [List.foldl_cons]
    refine ⟨?_, by rw [i2, h2], by rw [i3, h3]⟩
    rw [i1, h1, h2, List.filterMap_cons]
    cases strategyForIdentifier b.config.RefreshInterval s.Name <;> simp

/-- An identifier has a strategy exactly when it is one of the four named ones. -/
theorem strategyForIdentifier_isSome (refreshInterval : Duration) (name : String) :
    (strategyForIdentifier refreshInterval name).isSome = recognizedIdentifier name := by
  unfold strategyForIdentifier recognizedIdentifier
  split_ifs <;> simp [*]

/-- The number of strategies the identifiers map to is the number of recognized
identifiers. -/
theorem length_filterMap_strategyForIdentifier (refreshInterval : Duration)
    (l : List Schema.ServerAuthzEndpointAuthnStrategy) :
    (l.filterMap (fun s => strategyForIdentifier refreshInterval s.Name)).length
      = l.countP (fun s => recognizedIdentifier s.Name) := by
  induction l with
  | nil => rfl
  | cons s rest ih =>
    have h := strategyForIdentifier_isSome refreshInterval s.Name
    rw [List.filterMap_cons, List.countP_cons]
    cases hv : strategyForIdentifier refreshInterval s.Name with
    | none =>
      rw [hv] at h
      simp [← h, ih]
    | some v =>
      rw [hv] at h
      simp [← h, ih]

/-- C6: `WithEndpointConfig` sets the implementation to ForwardAuth when the
configured implementation name is the ForwardAuth name, to AuthRequest when it
is the AuthRequest name, and to Legacy for every other name, whatever
implementation the builder held before. -/
theorem withEndpointConfig_impl (b : AuthzBuilder)
    (config : Schema.ServerAuthzEndpointConfig) :
    (config.Implementation = AuthzImplementation.AuthzImplForwardAuth.String →
        (b.WithEndpointConfig config).impl = .AuthzImplForwardAuth) ∧
      (config.Implementation = AuthzImplementation.AuthzImplAuthRequest.String →
        (b.WithEndpointConfig config).impl = .AuthzImplAuthRequest) ∧
      (config.Implementation ≠ AuthzImplementation.AuthzImplForwardAuth.String →
        config.Implementation ≠ AuthzImplementation.AuthzImplAuthRequest.String →
        (b.WithEndpointConfig config).impl = .AuthzImplLegacy) := by
  have hne : AuthzImplementation.AuthzImplAuthRequest.String
      ≠ AuthzImplementation.AuthzImplForwardAuth.String := by decide
  unfold AuthzBuilder.WithEndpointConfig
  refine ⟨fun h => ?_, fun h => ?_, fun hf ha => ?_⟩
  · rw [(foldl_appendEndpointStrategy _ _).2.2]
    simp [h, AuthzBuilder.WithStrategies, AuthzBuilder.WithImplementationForwardAuth]
  · rw [(foldl_appendEndpointStrategy _ _).2.2]
    simp [h, hne, AuthzBuilder.WithStrategies, AuthzBuilder.WithImplementationAuthRequest]
  · rw [(foldl_appendEndpointStrategy _ _).2.2]
    simp [hf, ha, AuthzBuilder.WithStrategies, AuthzBuilder.WithImplementationLegacy]

/-- C6 at a builder that held AuthRequest: the empty name and an unrecognized
name both give Legacy, the two recognized names give their implementation. -/
theorem withEndpointConfig_impl_witness :
    ((AuthzBuilder.mk ⟨Hour, []⟩ .AuthzImplAuthRequest []).WithEndpointConfig
        ⟨"", [⟨"cookie-session"⟩]⟩).impl = .AuthzImplLegacy ∧
      ((AuthzBuilder.mk ⟨Hour, []⟩ .AuthzImplAuthRequest []).WithEndpointConfig
        ⟨"envoy", []⟩).impl = .AuthzImplLegacy ∧
      ((AuthzBuilder.mk ⟨Hour, []⟩ .AuthzImplAuthRequest []).WithEndpointConfig
        ⟨"forwardauth", []⟩).impl = .AuthzImplForwardAuth ∧
      ((AuthzBuilder.mk ⟨Hour, []⟩ .AuthzImplLegacy []).WithEndpointConfig
        ⟨"authrequest", []⟩).impl = .AuthzImplAuthRequest :=
  ⟨(withEndpointConfig_impl (AuthzBuilder.mk ⟨Hour, []⟩ .AuthzImplAuthRequest [])
      ⟨"", [⟨"cookie-session"⟩]⟩).2.2 (by decide) (by decide),
    (withEndpointConfig_impl (AuthzBuilder.mk ⟨Hour, []⟩ .AuthzImplAuthRequest [])
      ⟨"envoy", []⟩).2.2 (by decide) (by decide),
    (withEndpointConfig_impl (AuthzBuilder.mk ⟨Hour, []⟩ .AuthzImplAuthRequest [])
      ⟨"forwardauth", []⟩).1 (by decide),
    (withEndpointConfig_impl (AuthzBuilder.mk ⟨Hour, []⟩ .AuthzImplLegacy [])
      ⟨"authrequest", []⟩).2.1 (by decide)⟩

/-- C7: after `WithEndpointConfig` the strategy list is exactly the strategies
of the recognized identifiers in the configured order (the session-cookie one
carrying the refresh interval the builder holds at the call), unrecognized
identifiers being dropped; its length is the number of recognized identifiers,
duplicates included; the list does not depend on the strategies held before
the call, and the builder's config is unchanged. -/
theorem withEndpointConfig_strategies (b : AuthzBuilder)
    (config : Schema.ServerAuthzEndpointConfig) :
    (b.WithEndpointConfig config).strategies
        = config.AuthnStrategies.filterMap
            (fun s => strategyForIdentifier b.config.RefreshInterval s.Name) ∧
      (b.WithEndpointConfig config).strategies.length
        = config.AuthnStrategies.countP (fun s => recognizedIdentifier s.Name) ∧
      (∀ previous : List AuthnStrategy,
        ((b.WithStrategies previous).WithEndpointConfig config).strategies
          = (b.WithEndpointConfig config).strategies) ∧
      (b.WithEndpointConfig config).config = b.config := by
  have key : ∀ c : AuthzBuilder,
      (c.WithEndpointConfig config).strategies
        = config.AuthnStrategies.filterMap
            (fun s => strategyForIdentifier c.config.RefreshInterval s.Name) := by
    intro c
    unfold AuthzBuilder.WithEndpointConfig
    rw [(foldl_appendEndpointStrategy _ _).1]
    split_ifs <;>
      simp [AuthzBuilder.WithStrategies, AuthzBuilder.WithImplementationForwardAuth,
        AuthzBuilder.WithImplementationAuthRequest, AuthzBuilder.WithImplementationLegacy]
  refine ⟨key b, ?_, ?_, ?_⟩
  · rw [key b, length_filterMap_strategyForIdentifier]
  · intro previous
    rw [key b, key (b.WithStrategies previous)]
    rfl
  · unfold AuthzBuilder.WithEndpointConfig
    rw [(foldl_appendEndpointStrategy _ _).2.1]
    split_ifs <;>
      simp [AuthzBuilder.WithStrategies, AuthzBuilder.WithImplementationForwardAuth,
        AuthzBuilder.WithImplementationAuthRequest, AuthzBuilder.WithImplementationLegacy]

/-- C7 at a builder that held one strategy and a one-hour refresh interval, for
a list with a duplicate and two unrecognized identifiers. -/
theorem withEndpointConfig_strategies_witness :
    ((AuthzBuilder.mk ⟨Hour, []⟩ .AuthzImplLegacy
          [NewAuthorizationHeaderAuthnStrategy]).WithEndpointConfig
        ⟨"forwardauth",
          [⟨"header-legacy-combined"⟩, ⟨"Cookie-Session"⟩, ⟨"cookie-session"⟩, ⟨""⟩,
            ⟨"header-proxy-authorization"⟩, ⟨"cookie-session"⟩,
            ⟨"header-authorization"⟩]⟩).strategies
      = [NewLegacyHeaderAuthnStrategy, AuthnStrategy.SessionCookie Hour,
          NewProxyAuthorizationHeaderAuthnStrategy, AuthnStrategy.SessionCookie Hour,
          NewAuthorizationHeaderAuthnStrategy] :=
  (withEndpointConfig_strategies
      (AuthzBuilder.mk ⟨Hour, []⟩ .AuthzImplLegacy [NewAuthorizationHeaderAuthnStrategy])
      ⟨"forwardauth",
        [⟨"header-legacy-combined"⟩, ⟨"Cookie-Session"⟩, ⟨"cookie-session"⟩, ⟨""⟩,
          ⟨"header-proxy-authorization"⟩, ⟨"cookie-session"⟩,
          ⟨"header-authorization"⟩]⟩).1.trans (by decide)

/-! ## Properties of `Build`: the adapter pair -/

/-- C8: for every builder state, the engine `Build` returns has an object
extractor and an unauthorized responder bound, both written for the
implementation the builder selected: the Legacy extractor with the Legacy
responder, ForwardAuth with ForwardAuth, AuthRequest with AuthRequest; neither
is missing and the two never belong to different implementations. -/
theorem build_binds_matched_pair (b : AuthzBuilder) :
    (∃ get unauthorized,
        b.Build.fObjectGet = some get ∧ b.Build.fHandleUnauthorized = some unauthorized ∧
          get.implementation = b.impl ∧ unauthorized.implementation = b.impl ∧
          get.implementation = unauthorized.implementation) ∧
      (b.impl = .AuthzImplLegacy →
        b.Build.fObjectGet = some .authzGetObjectImplLegacy ∧
          b.Build.fHandleUnauthorized = some .authzHandleUnauthorizedImplLegacy) ∧
      (b.impl = .AuthzImplForwardAuth →
        b.Build.fObjectGet = some .authzGetObjectImplForwardAuth ∧
          b.Build.fHandleUnauthorized = some .authzHandleUnauthorizedImplForwardAuth) ∧
      (b.impl = .AuthzImplAuthRequest →
        b.Build.fObjectGet = some .authzGetObjectImplAuthRequest ∧
          b.Build.fHandleUnauthorized = some .authzHandleUnauthorizedImplAuthRequest) := by
  unfold AuthzBuilder.Build
  cases hi : b.impl <;>
    simp [AuthzGetObject.implementation, AuthzHandleUnauthorized.implementation]

/-- C8 at a fresh builder set to Legacy and at a ForwardAuth builder that holds
a strategy. -/
theorem build_binds_matched_pair_witness :
    (NewAuthzBuilder.WithImplementationLegacy.Build.fObjectGet
          = some .authzGetObjectImplLegacy ∧
        NewAuthzBuilder.WithImplementationLegacy.Build.fHandleUnauthorized
          = some .authzHandleUnauthorizedImplLegacy) ∧
      ((AuthzBuilder.mk ⟨0, []⟩ .AuthzImplForwardAuth
            [NewAuthorizationHeaderAuthnStrategy]).Build.fObjectGet
          = some .authzGetObjectImplForwardAuth ∧
        (AuthzBuilder.mk ⟨0, []⟩ .AuthzImplForwardAuth
            [NewAuthorizationHeaderAuthnStrategy]).Build.fHandleUnauthorized
          = some .authzHandleUnauthorizedImplForwardAuth) :=
  ⟨(build_binds_matched_pair NewAuthzBuilder.WithImplementationLegacy).2.1 rfl,
    (build_binds_matched_pair
      (AuthzBuilder.mk ⟨0, []⟩ .AuthzImplForwardAuth
        [NewAuthorizationHeaderAuthnStrategy])).2.2.1 rfl⟩

/-! ## Properties of `WithConfig`: the domains -/

/-- C9: for every non-nil configuration with session domain `d`, after
`WithConfig` the builder's `Domains` list has exactly one entry, whose name is
"." followed by `d` (so its first character is the dot) and whose portal URL is
unset, whatever `Domains` the builder held before. -/
theorem withConfig_domains (parse : String → ParseResult) (b : AuthzBuilder)
    (config : Schema.Configuration) :
    (b.WithConfig parse (some config)).config.Domains
        = [{ Name := "." ++ config.Session.Domain, PortalURL := none }] ∧
      (b.WithConfig parse (some config)).config.Domains.length = 1 ∧
      ∀ d ∈ (b.WithConfig parse (some config)).config.Domains,
        d.Name.data = '.' :: config.Session.Domain.data ∧ d.PortalURL = none := by
  have h : (b.WithConfig parse (some config)).config.Domains
      = [{ Name := "." ++ config.Session.Domain, PortalURL := none }] := by
    simp [AuthzBuilder.WithConfig]
  refine ⟨h, by rw [h]; rfl, ?_⟩
  intro d hd
  rw [h] at hd
  have hd2 : d = { Name := "." ++ config.Session.Domain, PortalURL := none } := by
    simpa using hd
  subst hd2
  refine ⟨?_, rfl⟩
  show ("." ++ config.Session.Domain).data = '.' :: config.Session.Domain.data
  rw [String.data_append]
  rfl

/-- C9 at a builder that already held two domains. -/
theorem withConfig_domains_witness :
    ((AuthzBuilder.mk ⟨0, [⟨".old.example", some "https://auth.old.example"⟩,
          ⟨".other.example", none⟩]⟩ .AuthzImplLegacy []).WithConfig ParseDurationString
        (some (configOf "always" "example.com"))).config.Domains
      = [⟨".example.com", none⟩] :=
  (withConfig_domains ParseDurationString
      (AuthzBuilder.mk ⟨0, [⟨".old.example", some "https://auth.old.example"⟩,
        ⟨".other.example", none⟩]⟩ .AuthzImplLegacy [])
      (configOf "always" "example.com")).1.trans (by decide)

/-! ## Properties of `WithStrategies` -/

/-- C10: for every builder state and every non-empty strategy list `L`,
`WithStrategies L` leaves the builder's strategy list equal to `L`, whatever
strategies earlier calls had added, leaves config and implementation
unchanged, and a `Build` that follows returns an engine whose strategies are
exactly `L`, in the same order and with no default strategy injected, for
every implementation. -/
theorem withStrategies_replaces (b : AuthzBuilder) (L : List AuthnStrategy)
    (hL : L ≠ []) :
    (b.WithStrategies L).strategies = L ∧
      (b.WithStrategies L).config = b.config ∧
      (b.WithStrategies L).impl = b.impl ∧
      (b.WithStrategies L).Build.strategies = L ∧
      (b.WithStrategies L).Build.config = b.config := by
  have hs : (b.WithStrategies L).strategies = L := rfl
  refine ⟨hs, rfl, rfl, ?_, ?_⟩
  · rw [build_strategies_of_ne_nil (b.WithStrategies L) (by rw [hs]; exact hL), hs]
  · unfold AuthzBuilder.Build
    cases hi : (b.WithStrategies L).impl <;> simp <;> split_ifs <;> rfl

/-- C10 after `WithStrategyCookie`, `WithStrategyAuthorization`,
`WithStrategyProxyAuthorization` and `WithEndpointConfig` on an AuthRequest
endpoint: only the replacing list reaches the engine. -/
theorem withStrategies_replaces_witness :
    (AuthzBuilder.WithStrategies
        (AuthzBuilder.WithEndpointConfig
          (AuthzBuilder.WithStrategyProxyAuthorization
            (AuthzBuilder.WithStrategyAuthorization
              (AuthzBuilder.WithStrategyCookie NewAuthzBuilder Hour)))
          ⟨"authrequest", [⟨"cookie-session"⟩]⟩)
        [NewLegacyHeaderAuthnStrategy, NewAuthorizationHeaderAuthnStrategy]).Build.strategies
      = [NewLegacyHeaderAuthnStrategy, NewAuthorizationHeaderAuthnStrategy] :=
  (withStrategies_replaces
      (AuthzBuilder.WithEndpointConfig
        (AuthzBuilder.WithStrategyProxyAuthorization
          (AuthzBuilder.WithStrategyAuthorization
            (AuthzBuilder.WithStrategyCookie NewAuthzBuilder Hour)))
        ⟨"authrequest", [⟨"cookie-session"⟩]⟩)
      [NewLegacyHeaderAuthnStrategy, NewAuthorizationHeaderAuthnStrategy]
      (by decide)).2.2.2.1

/-! ## `WithEndpointConfig` without a recognized identifier, then `Build` -/

/-- A list of identifiers none of which is recognized maps to no strategy. -/
theorem filterMap_strategyForIdentifier_of_unrecognized (refreshInterval : Duration)
    (l : List Schema.ServerAuthzEndpointAuthnStrategy)
    (h : ∀ s ∈ l, recognizedIdentifier s.Name = false) :
    l.filterMap (fun s => strategyForIdentifier refreshInterval s.Name) = [] := by
  induction l with
  | nil => rfl
  | cons s rest ih =>
    have hs : recognizedIdentifier s.Name = false := h s (List.mem_cons_self s rest)
    have hrest : ∀ t ∈ rest, recognizedIdentifier t.Name = false :=
      fun t ht => h t (List.mem_cons_of_mem s ht)
    have hnone : strategyForIdentifier refreshInterval s.Name = none := by
      have hsome := strategyForIdentifier_isSome refreshInterval s.Name
      rw [hs] at hsome
      cases hv : strategyForIdentifier refreshInterval s.Name with
      | none => rfl
      | some v => rw [hv] at hsome; simp at hsome
    rw [List.filterMap_cons, hnone]
    exact ih hrest

/-- The builder `WithEndpointConfig` returns holds the config it was given. -/
theorem withEndpointConfig_config_eq (b : AuthzBuilder)
    (config : Schema.ServerAuthzEndpointConfig) :
    (b.WithEndpointConfig config).config = b.config := by
  unfold AuthzBuilder.WithEndpointConfig
  rw [(foldl_appendEndpointStrategy _ _).2.1]
  split_ifs <;>
    simp [AuthzBuilder.WithStrategies, AuthzBuilder.WithImplementationForwardAuth,
      AuthzBuilder.WithImplementationAuthRequest, AuthzBuilder.WithImplementationLegacy]

/-- With no recognized identifier, `WithEndpointConfig` returns a builder with
no strategy at all. -/
theorem withEndpointConfig_strategies_nil_of_unrecognized (b : AuthzBuilder)
    (config : Schema.ServerAuthzEndpointConfig)
    (h : ∀ s ∈ config.AuthnStrategies, recognizedIdentifier s.Name = false) :
    (b.WithEndpointConfig config).strategies = [] := by
  unfold AuthzBuilder.WithEndpointConfig
  rw [(foldl_appendEndpointStrategy _ _).1,
    filterMap_strategyForIdentifier_of_unrecognized _ _ h]
  split_ifs <;>
    simp [AuthzBuilder.WithStrategies, AuthzBuilder.WithImplementationForwardAuth,
      AuthzBuilder.WithImplementationAuthRequest, AuthzBuilder.WithImplementationLegacy]

/-- C11: for every endpoint configuration none of whose strategy identifiers is
recognized (the empty identifier list included), `WithEndpointConfig` leaves
the builder without strategies, and the `Build` that follows returns exactly
the strategies `Build` returns on any builder with the same implementation,
the same config and no strategies: the default pair of the selected
implementation is injected, so the engine is never left without an
authenticator. -/
theorem withEndpointConfig_unrecognized_build_defaults (b : AuthzBuilder)
    (config : Schema.ServerAuthzEndpointConfig)
    (h : ∀ s ∈ config.AuthnStrategies, recognizedIdentifier s.Name = false) :
    (b.WithEndpointConfig config).strategies = [] ∧
      (∀ c : AuthzBuilder,
        c.impl = (b.WithEndpointConfig config).impl → c.config = b.config →
        c.strategies = [] →
        (b.WithEndpointConfig config).Build.strategies = c.Build.strategies) ∧
      ((b.WithEndpointConfig config).impl = .AuthzImplLegacy →
        (b.WithEndpointConfig config).Build.strategies
          = [NewLegacyHeaderAuthnStrategy,
              NewSessionCookieAuthnStrategy b.config.RefreshInterval]) ∧
      ((b.WithEndpointConfig config).impl = .AuthzImplForwardAuth →
        (b.WithEndpointConfig config).Build.strategies
          = [NewProxyAuthorizationHeaderAuthnStrategy,
              NewSessionCookieAuthnStrategy b.config.RefreshInterval]) ∧
      ((b.WithEndpointConfig config).impl = .AuthzImplAuthRequest →
        (b.WithEndpointConfig config).Build.strategies
          = [ AuthnStrategy.Header
                { authn := .AuthnTypeProxyAuthorization
                  headerAuthorize := "Proxy-Authorization"
                  handleAuthenticate := true
                  statusAuthenticate := 401 },
              NewSessionCookieAuthnStrategy 0 ]) ∧
      (b.WithEndpointConfig config).Build.strategies ≠ [] := by
  have hnil := withEndpointConfig_strategies_nil_of_unrecognized b config h
  have hcfg := withEndpointConfig_config_eq b config
  refine ⟨hnil, ?_, ?_, ?_, ?_, build_strategies_ne_nil _⟩
  · intro c hi hc hs
    have hEq : b.WithEndpointConfig config = c := by
      cases c
      cases hb : b.WithEndpointConfig config
      rw [hb] at hnil hcfg hi
      simp only at hnil hcfg hi hc hs
      simp [hnil, hcfg, hi, hc, hs]
    rw [hEq]
  · intro hi
    rw [build_strategies_nil_legacy _ hnil hi, hcfg]
  · intro hi
    rw [build_strategies_nil_forwardAuth _ hnil hi, hcfg]
  · intro hi
    rw [build_strategies_nil_authRequest _ hnil hi]
    rfl

/-- C11 at a ForwardAuth builder that held a strategy: two misspelled
identifiers on an AuthRequest endpoint give the AuthRequest default pair, the
same strategies as `Build` on the strategy-free AuthRequest builder. -/
theorem withEndpointConfig_unrecognized_build_defaults_witness :
    ((AuthzBuilder.mk ⟨Hour, []⟩ .AuthzImplForwardAuth
          [NewAuthorizationHeaderAuthnStrategy]).WithEndpointConfig
        ⟨"authrequest", [⟨"cookie_session"⟩, ⟨"Header-Authorization"⟩]⟩).Build.strategies
      = (AuthzBuilder.mk ⟨Hour, []⟩ .AuthzImplAuthRequest []).Build.strategies :=
  (withEndpointConfig_unrecognized_build_defaults
      (AuthzBuilder.mk ⟨Hour, []⟩ .AuthzImplForwardAuth [NewAuthorizationHeaderAuthnStrategy])
      ⟨"authrequest", [⟨"cookie_session"⟩, ⟨"Header-Authorization"⟩]⟩
      (by decide)).2.1
    (AuthzBuilder.mk ⟨Hour, []⟩ .AuthzImplAuthRequest []) (by decide) rfl rfl

end Handlers
